import Mathlib

/-!
Verification of the go-pg-migrations migration runner.

The embedding below is translated from `migrate.go` and `rollback.go`.
The database world is a `DBState`: the rows of the migrations (ledger)
table, in insertion order, and the single lock row's boolean.  Migration
actions (`Up`/`Down`) are modelled by their observable outcome: `none`
means the action succeeds, `some cause` means it returns the error
`cause`; schema side effects of actions are outside the claims treated
here.  The ledger insert/delete and query operations of the database
collaborator are modelled as total; the lock-release update may be made
to fail through the `releaseFails` fault flag, mirroring a failing
`UPDATE`.  Runs are instrumented with the list of action names invoked
(`executed`), the messages printed (`output`), and the lock operations
performed (`lockOps`), so that "no action runs", "reports X" and
"without locking" become statable.
-/

namespace GoPgMigrations

/-- Modelled from the spec: the `migration` record (declared in a file of the
repository not present under src/, used throughout migrate.go and
rollback.go).  `Name`, `Batch`, `CompletedAt` are the persisted ledger
columns; `Up`/`Down` are the forward and reverse actions, modelled by their
outcome (`none` = success, `some cause` = failure with error `cause`);
`DisableTransaction` is the transaction policy from `MigrationOptions`. -/
structure migration where
  Name : String
  Up : Option String
  Down : Option String
  Batch : Int
  CompletedAt : Nat
  DisableTransaction : Bool
  deriving Repr, DecidableEq

/-- Modelled from the spec: the persisted world the runner touches — the
ledger table rows (insertion order) and the lock table's single row
(fixed `lockID`), reduced to its `is_locked` boolean. -/
structure DBState where
  ledger : List migration
  lockIsLocked : Bool
  deriving Repr, DecidableEq

/-- Lock-trace events: a call to `acquireLock` and a call to `releaseLock`. -/
inductive LockOp where
  | acquireOp
  | releaseOp
  deriving Repr, DecidableEq

/-- Errors surfaced by a run: `ErrAlreadyLocked` from `acquireLock`, or an
action failure wrapped by `fmt.Errorf("%s: %s", m.Name, err)`. -/
inductive RunError where
  | alreadyLocked
  | actionFailed (name : String) (cause : String)
  deriving Repr, DecidableEq

/-- Rendering of a `RunError` as the error string the caller sees. -/
def RunError.message : RunError → String
  | .alreadyLocked => "migrations lock is already taken"
  | .actionFailed name cause => name ++ ": " ++ cause

/-- Translated from `acquireLock` (migrate.go): inside one transaction,
select the lock row `FOR UPDATE`; if `IsLocked`, return `ErrAlreadyLocked`
(the transaction rolls back, so the state is returned unchanged);
otherwise set `IsLocked = true` and commit. -/
def acquireLock (s : DBState) : DBState × Option RunError :=
  if s.lockIsLocked then (s, some RunError.alreadyLocked)
  else ({ s with lockIsLocked := true }, none)

/-- Translated from `releaseLock` (migrate.go): unconditionally update the
lock row to `IsLocked = false` and return the update's error.  The
`updateFails` fault flag models the update failing, in which case the row
is unchanged. -/
def releaseLock (updateFails : Bool) (s : DBState) : DBState × Option String :=
  if updateFails then (s, some "update failed")
  else ({ s with lockIsLocked := false }, none)

/-- Translated from `getCompletedMigrations` (migrate.go): all ledger rows
ordered by `id`, i.e. in insertion order. -/
def getCompletedMigrations (s : DBState) : List migration :=
  s.ledger

/-- Translated from `getLastBatchNumber` (migrate.go):
`COALESCE(MAX(batch), 0)` over the ledger. -/
def getLastBatchNumber (s : DBState) : Int :=
  match (s.ledger.map migration.Batch).max? with
  | none => 0
  | some b => b

/-- Translated from `filterMigrations` (migrate.go): build the set of names
of `subset`, then keep the elements of `all` whose name's membership in
that set equals `wantCompleted`, preserving the order of `all`. -/
def filterMigrations (all subset : List migration) (wantCompleted : Bool) : List migration :=
  let subsetNames := subset.map migration.Name
  all.filter (fun a => subsetNames.contains a.Name == wantCompleted)

/-- Translated from `getMigrationsForBatch` (rollback.go): the ledger rows
whose `Batch` equals the given batch. -/
def getMigrationsForBatch (ms : List migration) (batch : Int) : List migration :=
  ms.filter (fun m => m.Batch == batch)

/-- Ordering used by the apply path (`sort.Slice` with `Name <` in
migrate.go): ascending by name. -/
def nameLe (a b : migration) : Prop := a.Name ≤ b.Name

/-- Ordering used by the rollback path (`sort.Slice` with `Name >` in
rollback.go): descending by name. -/
def nameGe (a b : migration) : Prop := b.Name ≤ a.Name

instance : DecidableRel nameLe :=
  fun a b => inferInstanceAs (Decidable (a.Name ≤ b.Name))

instance : DecidableRel nameGe :=
  fun a b => inferInstanceAs (Decidable (b.Name ≤ a.Name))

instance : IsTotal migration nameLe :=
  ⟨fun a b => le_total a.Name b.Name⟩

instance : IsTrans migration nameLe :=
  ⟨fun _ _ _ h1 h2 => le_trans h1 h2⟩

instance : IsTotal migration nameGe :=
  ⟨fun a b => le_total b.Name a.Name⟩

instance : IsTrans migration nameGe :=
  ⟨fun _ _ _ h1 h2 => le_trans h2 h1⟩

/-- The apply path's in-place sort of the registry, ascending by name. -/
def sortByNameAsc (ms : List migration) : List migration :=
  List.insertionSort nameLe ms

/-- The rollback path's in-place sort of the registry, descending by name. -/
def sortByNameDesc (ms : List migration) : List migration :=
  List.insertionSort nameGe ms

/-- Outcome of the per-migration loop inside a run. -/
structure LoopResult where
  db : DBState
  executed : List String
  output : List String
  err : Option RunError
  deriving Repr, DecidableEq

/-- Outcome of a whole run (`migrate`, `rollback` or `rollbackNamed`):
the re-sorted registry, the final database state, the instrumentation
traces and the returned error. -/
structure RunResult where
  registry : List migration
  db : DBState
  executed : List String
  output : List String
  lockOps : List LockOp
  err : Option RunError
  deriving Repr, DecidableEq

/-- The assignments `m.Batch = batch` and `m.CompletedAt = time.Now()`
performed on a migration before its ledger row is inserted. -/
def stampUp (batch : Int) (now : Nat) (m : migration) : migration :=
  { m with Batch := batch, CompletedAt := now }

/-- Translated from the loop of `migrate` (migrate.go lines 72-93): run each
migration's `Up` (inside a per-migration transaction unless
`DisableTransaction`); on failure return `fmt.Errorf("%s: %s", name, err)`
at once; on success insert the stamped ledger row and continue. -/
def runUpLoop (batch : Int) (now : Nat) (ms : List migration) (s : DBState) : LoopResult :=
  match ms with
  | [] => { db := s, executed := [], output := [], err := none }
  | m :: rest =>
    match m.Up with
    | some cause =>
      { db := s, executed := [m.Name], output := [],
        err := some (RunError.actionFailed m.Name cause) }
    | none =>
      let m2 := stampUp batch now m
      let s2 := { s with ledger := s.ledger ++ [m2] }
      let res := runUpLoop batch now rest s2
      { res with
        executed := m.Name :: res.executed,
        output := ("Finished running \"" ++ m.Name ++ "\"") :: res.output }

/-- Translated from the loops of `rollback` and `rollbackNamed`
(rollback.go): run each migration's `Down` (inside a per-migration
transaction unless `DisableTransaction`); on failure return
`fmt.Errorf("%s: %s", name, err)` at once; on success delete the ledger
rows `WHERE name = m.Name` and continue. -/
def runDownLoop (ms : List migration) (s : DBState) : LoopResult :=
  match ms with
  | [] => { db := s, executed := [], output := [], err := none }
  | m :: rest =>
    match m.Down with
    | some cause =>
      { db := s, executed := [m.Name], output := [],
        err := some (RunError.actionFailed m.Name cause) }
    | none =>
      let s2 := { s with ledger := s.ledger.filter (fun e => !(e.Name == m.Name)) }
      let res := runDownLoop rest s2
      { res with
        executed := m.Name :: res.executed,
        output := ("Finished rolling back \"" ++ m.Name ++ "\"") :: res.output }

/-- Translated from `migrate` (migrate.go): sort the registry ascending by
name, read the completed ledger rows, diff them from the registry; if
nothing is pending report "Migrations already up to date" and return
before touching the lock; otherwise acquire the lock, compute the batch
number once as `getLastBatchNumber + 1`, run the loop, and release the
lock on the way out (deferred; its error is discarded). -/
def migrate (releaseFails : Bool) (now : Nat) (registry : List migration)
    (s : DBState) : RunResult :=
  let sorted := sortByNameAsc registry
  let completed := getCompletedMigrations s
  let uncompleted := filterMigrations sorted completed false
  if uncompleted.length = 0 then
    { registry := sorted, db := s, executed := [],
      output := ["Migrations already up to date"], lockOps := [], err := none }
  else
    match acquireLock s with
    | (s1, some e) =>
      { registry := sorted, db := s1, executed := [], output := [],
        lockOps := [LockOp.acquireOp], err := some e }
    | (s1, none) =>
      let batch := getLastBatchNumber s1 + 1
      let header := "Running batch " ++ toString batch ++ " with "
        ++ toString uncompleted.length ++ " migration(s)..."
      let res := runUpLoop batch now uncompleted s1
      let s2 := (releaseLock releaseFails res.db).1
      { registry := sorted, db := s2, executed := res.executed,
        output := header :: res.output,
        lockOps := [LockOp.acquireOp, LockOp.releaseOp], err := res.err }

/-- Translated from `rollback` (rollback.go): sort the registry descending
by name, read the completed rows, acquire the lock, read the last batch
number; if it is 0 report "No migrations have been run yet" and return
(the deferred release still runs); otherwise select the completed rows of
that batch, intersect with the registry, run the down loop, release. -/
def rollback (releaseFails : Bool) (registry : List migration)
    (s : DBState) : RunResult :=
  let sorted := sortByNameDesc registry
  let completed := getCompletedMigrations s
  match acquireLock s with
  | (s1, some e) =>
    { registry := sorted, db := s1, executed := [], output := [],
      lockOps := [LockOp.acquireOp], err := some e }
  | (s1, none) =>
    let batch := getLastBatchNumber s1
    if batch = 0 then
      let s2 := (releaseLock releaseFails s1).1
      { registry := sorted, db := s2, executed := [],
        output := ["No migrations have been run yet"],
        lockOps := [LockOp.acquireOp, LockOp.releaseOp], err := none }
    else
      let toRoll := filterMigrations sorted (getMigrationsForBatch completed batch) true
      let header := "Rolling back batch " ++ toString batch ++ " with "
        ++ toString toRoll.length ++ " migration(s)..."
      let res := runDownLoop toRoll s1
      let s2 := (releaseLock releaseFails res.db).1
      { registry := sorted, db := s2, executed := res.executed,
        output := header :: res.output,
        lockOps := [LockOp.acquireOp, LockOp.releaseOp], err := res.err }

/-- Translated from `rollbackNamed` (rollback.go lines 81-82): remove every
space from the argument, then split on commas. -/
def parseNamesArg (input : String) : List String :=
  (input.replace " " "").splitOn ","

/-- Translated from the nested loops of `rollbackNamed` (rollback.go lines
103-110): for each completed row, for each requested name, append the row
on a name match. -/
def selectNamed (completed : List migration) (names : List String) : List migration :=
  completed.flatMap
    (fun mRecord => names.filterMap
      (fun name => if mRecord.Name == name then some mRecord else none))

/-- Translated from `rollbackNamed` (rollback.go): sort the registry
descending by name, read the completed rows, parse the requested names,
acquire the lock, read the last batch number; if it is 0 report "No
migrations have been run yet"; otherwise select the completed rows whose
name was requested (any batch); if any were selected, intersect with the
registry and run the down loop, else report "No such named migrations
exist!".  The deferred release runs on every path after the acquire. -/
def rollbackNamed (releaseFails : Bool) (registry : List migration)
    (s : DBState) (namesArg : String) : RunResult :=
  let sorted := sortByNameDesc registry
  let completed := getCompletedMigrations s
  let names := parseNamesArg namesArg
  match acquireLock s with
  | (s1, some e) =>
    { registry := sorted, db := s1, executed := [], output := [],
      lockOps := [LockOp.acquireOp], err := some e }
  | (s1, none) =>
    let batch := getLastBatchNumber s1
    if batch = 0 then
      let s2 := (releaseLock releaseFails s1).1
      { registry := sorted, db := s2, executed := [],
        output := ["No migrations have been run yet"],
        lockOps := [LockOp.acquireOp, LockOp.releaseOp], err := none }
    else
      let selected := selectNamed completed names
      if selected.length > 0 then
        let toRoll := filterMigrations sorted selected true
        let header := "Rolling back " ++ toString toRoll.length
          ++ " selected migration(s)..."
        let res := runDownLoop toRoll s1
        let s2 := (releaseLock releaseFails res.db).1
        { registry := sorted, db := s2, executed := res.executed,
          output := header :: res.output,
          lockOps := [LockOp.acquireOp, LockOp.releaseOp], err := res.err }
      else
        let s2 := (releaseLock releaseFails s1).1
        { registry := sorted, db := s2, executed := [],
          output := ["No such named migrations exist!"],
          lockOps := [LockOp.acquireOp, LockOp.releaseOp], err := none }

/-! ### Basic lemmas about the embedded operations -/

theorem contains_eq_decide_mem (l : List String) (a : String) :
    l.contains a = decide (a ∈ l) := by
  simp [List.elem_iff]

theorem mem_sortByNameAsc {m : migration} {l : List migration} :
    m ∈ sortByNameAsc l ↔ m ∈ l :=
  (List.perm_insertionSort nameLe l).mem_iff

theorem mem_sortByNameDesc {m : migration} {l : List migration} :
    m ∈ sortByNameDesc l ↔ m ∈ l :=
  (List.perm_insertionSort nameGe l).mem_iff

theorem releaseLock_ledger (f : Bool) (s : DBState) :
    (releaseLock f s).1.ledger = s.ledger := by
  cases f <;> simp [releaseLock]

theorem mem_filterMigrations_true {m : migration} {all subset : List migration} :
    m ∈ filterMigrations all subset true ↔
      m ∈ all ∧ m.Name ∈ subset.map migration.Name := by
  simp [filterMigrations, List.mem_filter, List.elem_iff]

theorem mem_filterMigrations_false {m : migration} {all subset : List migration} :
    m ∈ filterMigrations all subset false ↔
      m ∈ all ∧ ¬ m.Name ∈ subset.map migration.Name := by
  simp [filterMigrations, List.mem_filter, List.elem_iff]

theorem filterMigrations_eq_nil_iff {all subset : List migration} :
    filterMigrations all subset false = [] ↔
      ∀ a ∈ all, a.Name ∈ subset.map migration.Name := by
  simp [filterMigrations, List.filter_eq_nil_iff, List.elem_iff]

/-! ### Lemmas about the apply loop -/

theorem runUpLoop_lock (batch : Int) (now : Nat) (ms : List migration) (s : DBState) :
    (runUpLoop batch now ms s).db.lockIsLocked = s.lockIsLocked := by
  induction ms generalizing s with
  | nil => rfl
  | cons m rest ih =>
    cases h : m.Up with
    | some cause => simp [runUpLoop, h]
    | none =>
      simp only [runUpLoop, h]
      exact ih { s with ledger := s.ledger ++ [stampUp batch now m] }

theorem runUpLoop_ledger_shape (batch : Int) (now : Nat) (ms : List migration)
    (s : DBState) :
    ∃ ap : List migration,
      (runUpLoop batch now ms s).db.ledger = s.ledger ++ ap
      ∧ ∀ e ∈ ap, e.Batch = batch := by
  induction ms generalizing s with
  | nil => exact ⟨[], by simp [runUpLoop], by simp⟩
  | cons m rest ih =>
    cases h : m.Up with
    | some cause => exact ⟨[], by simp [runUpLoop, h], by simp⟩
    | none =>
      obtain ⟨ap, hap, hb⟩ := ih { s with ledger := s.ledger ++ [stampUp batch now m] }
      refine ⟨stampUp batch now m :: ap, ?_, ?_⟩
      · simp only [runUpLoop, h]
        simpa [List.append_assoc] using hap
      · intro e he
        rcases List.mem_cons.mp he with rfl | he2
        · rfl
        · exact hb e he2

theorem runUpLoop_success (batch : Int) (now : Nat) (ms : List migration) (s : DBState)
    (h : ∀ m ∈ ms, m.Up = none) :
    (runUpLoop batch now ms s).db.ledger = s.ledger ++ ms.map (stampUp batch now)
    ∧ (runUpLoop batch now ms s).executed = ms.map migration.Name
    ∧ (runUpLoop batch now ms s).err = none := by
  induction ms generalizing s with
  | nil => simp [runUpLoop]
  | cons m rest ih =>
    have hm : m.Up = none := h m (List.mem_cons_self m rest)
    have hrest : ∀ x ∈ rest, x.Up = none := fun x hx => h x (List.mem_cons_of_mem m hx)
    obtain ⟨h1, h2, h3⟩ := ih { s with ledger := s.ledger ++ [stampUp batch now m] } hrest
    refine ⟨?_, ?_, ?_⟩
    · simp only [runUpLoop, hm]
      simpa [List.append_assoc] using h1
    · simp only [runUpLoop, hm, List.map_cons]
      simpa using h2
    · simp only [runUpLoop, hm]
      simpa using h3

theorem runUpLoop_err_none (batch : Int) (now : Nat) (ms : List migration) (s : DBState)
    (h : (runUpLoop batch now ms s).err = none) :
    ∀ m ∈ ms, m.Up = none := by
  induction ms generalizing s with
  | nil => intro m hm; exact absurd hm (List.not_mem_nil m)
  | cons m rest ih =>
    intro x hx
    cases hm : m.Up with
    | some cause => simp [runUpLoop, hm] at h
    | none =>
      rcases List.mem_cons.mp hx with rfl | hx2
      · exact hm
      · have h2 : (runUpLoop batch now rest
            { s with ledger := s.ledger ++ [stampUp batch now m] }).err = none := by
          simpa [runUpLoop, hm] using h
        exact ih _ h2 x hx2

theorem runUpLoop_fail (batch : Int) (now : Nat) (ms : List migration) (s : DBState)
    (k : Nat) (hk : k < ms.length) (cause : String)
    (hpre : ∀ i (hi : i < k), (ms.get ⟨i, Nat.lt_trans hi hk⟩).Up = none)
    (hfail : (ms.get ⟨k, hk⟩).Up = some cause) :
    (runUpLoop batch now ms s).db.ledger
      = s.ledger ++ (ms.take k).map (stampUp batch now)
    ∧ (runUpLoop batch now ms s).executed = (ms.take (k + 1)).map migration.Name
    ∧ (runUpLoop batch now ms s).err
        = some (RunError.actionFailed (ms.get ⟨k, hk⟩).Name cause) := by
  induction ms generalizing s k with
  | nil => exact absurd hk (Nat.not_lt_zero k)
  | cons m rest ih =>
    cases k with
    | zero =>
      simp only [List.get] at hfail
      simp [runUpLoop, hfail, List.get]
    | succ k2 =>
      have hm : m.Up = none := hpre 0 (Nat.succ_pos k2)
      have hk2 : k2 < rest.length := Nat.lt_of_succ_lt_succ hk
      have hpre2 : ∀ i (hi : i < k2), (rest.get ⟨i, Nat.lt_trans hi hk2⟩).Up = none :=
        fun i hi => hpre (i + 1) (Nat.succ_lt_succ hi)
      have hfail2 : (rest.get ⟨k2, hk2⟩).Up = some cause := hfail
      obtain ⟨h1, h2, h3⟩ :=
        ih { s with ledger := s.ledger ++ [stampUp batch now m] } k2 hk2 hpre2 hfail2
      refine ⟨?_, ?_, ?_⟩
      · simp only [runUpLoop, hm, List.take_succ_cons, List.map_cons]
        simpa [List.append_assoc] using h1
      · simp only [runUpLoop, hm, List.take_succ_cons, List.map_cons]
        simpa using h2
      · simp only [runUpLoop, hm]
        simpa using h3

/-! ### Lemmas about the rollback loop -/

/-- Deleting a set of names from the ledger in one pass; the sequential
per-name deletes of the rollback loop compose to this. -/
def deleteNames (names : List String) (l : List migration) : List migration :=
  l.filter (fun e => !(names.contains e.Name))

theorem deleteNames_nil (l : List migration) : deleteNames [] l = l := by
  simp [deleteNames]

theorem deleteNames_cons (n : String) (names : List String) (l : List migration) :
    deleteNames names (l.filter (fun e => !(e.Name == n)))
      = deleteNames (n :: names) l := by
  unfold deleteNames
  rw [List.filter_filter]
  refine List.filter_congr ?_
  intro x _
  by_cases hx : x.Name = n <;> by_cases hc : x.Name ∈ names <;>
    simp [List.contains_cons, hx, hc, List.elem_iff]

theorem runDownLoop_lock (ms : List migration) (s : DBState) :
    (runDownLoop ms s).db.lockIsLocked = s.lockIsLocked := by
  induction ms generalizing s with
  | nil => rfl
  | cons m rest ih =>
    cases h : m.Down with
    | some cause => simp [runDownLoop, h]
    | none =>
      simp only [runDownLoop, h]
      exact ih { s with ledger := s.ledger.filter (fun e => !(e.Name == m.Name)) }

theorem runDownLoop_sublist (ms : List migration) (s : DBState) :
    List.Sublist (runDownLoop ms s).db.ledger s.ledger := by
  induction ms generalizing s with
  | nil => exact List.Sublist.refl _
  | cons m rest ih =>
    cases h : m.Down with
    | some cause => simp [runDownLoop, h]
    | none =>
      simp only [runDownLoop, h]
      exact List.Sublist.trans
        (ih { s with ledger := s.ledger.filter (fun e => !(e.Name == m.Name)) })
        (List.filter_sublist s.ledger)

theorem runDownLoop_frame (ms : List migration) (s : DBState) :
    ∀ e ∈ s.ledger, ¬ e.Name ∈ ms.map migration.Name →
      e ∈ (runDownLoop ms s).db.ledger := by
  induction ms generalizing s with
  | nil => intro e he _; simpa [runDownLoop] using he
  | cons m rest ih =>
    intro e he hn
    have hne : ¬ e.Name = m.Name := fun hc => hn (by simp [hc])
    have hn2 : ¬ e.Name ∈ rest.map migration.Name := fun hc => hn (by simp [hc])
    cases h : m.Down with
    | some cause => simpa [runDownLoop, h] using he
    | none =>
      simp only [runDownLoop, h]
      refine ih _ e ?_ hn2
      simp [List.mem_filter, he, hne]

theorem runDownLoop_executed_sub (ms : List migration) (s : DBState) :
    ∀ n ∈ (runDownLoop ms s).executed, n ∈ ms.map migration.Name := by
  induction ms generalizing s with
  | nil => intro n hn; simp [runDownLoop] at hn
  | cons m rest ih =>
    intro n hn
    cases h : m.Down with
    | some cause =>
      simp only [runDownLoop, h] at hn
      simp only [List.mem_singleton] at hn
      simp [hn]
    | none =>
      simp only [runDownLoop, h] at hn
      rcases List.mem_cons.mp hn with rfl | hn2
      · simp
      · simpa using Or.inr (ih _ n hn2)

theorem runDownLoop_success (ms : List migration) (s : DBState)
    (h : ∀ m ∈ ms, m.Down = none) :
    (runDownLoop ms s).db.ledger = deleteNames (ms.map migration.Name) s.ledger
    ∧ (runDownLoop ms s).executed = ms.map migration.Name
    ∧ (runDownLoop ms s).err = none := by
  induction ms generalizing s with
  | nil => simp [runDownLoop, deleteNames_nil]
  | cons m rest ih =>
    have hm : m.Down = none := h m (List.mem_cons_self m rest)
    have hrest : ∀ x ∈ rest, x.Down = none := fun x hx => h x (List.mem_cons_of_mem m hx)
    obtain ⟨h1, h2, h3⟩ :=
      ih { s with ledger := s.ledger.filter (fun e => !(e.Name == m.Name)) } hrest
    refine ⟨?_, ?_, ?_⟩
    · simp only [runDownLoop, hm, List.map_cons]
      rw [show ({ s with ledger := s.ledger.filter (fun e => !(e.Name == m.Name)) } :
        DBState).ledger = s.ledger.filter (fun e => !(e.Name == m.Name)) from rfl] at h1
      simpa [deleteNames_cons] using h1
    · simp only [runDownLoop, hm, List.map_cons]
      simpa using h2
    · simp only [runDownLoop, hm]
      simpa using h3

theorem runDownLoop_fail (ms : List migration) (s : DBState)
    (k : Nat) (hk : k < ms.length) (cause : String)
    (hpre : ∀ i (hi : i < k), (ms.get ⟨i, Nat.lt_trans hi hk⟩).Down = none)
    (hfail : (ms.get ⟨k, hk⟩).Down = some cause) :
    (runDownLoop ms s).db.ledger
      = deleteNames ((ms.take k).map migration.Name) s.ledger
    ∧ (runDownLoop ms s).executed = (ms.take (k + 1)).map migration.Name
    ∧ (runDownLoop ms s).err
        = some (RunError.actionFailed (ms.get ⟨k, hk⟩).Name cause) := by
  induction ms generalizing s k with
  | nil => exact absurd hk (Nat.not_lt_zero k)
  | cons m rest ih =>
    cases k with
    | zero =>
      simp only [List.get] at hfail
      simp [runDownLoop, hfail, List.get, deleteNames_nil]
    | succ k2 =>
      have hm : m.Down = none := hpre 0 (Nat.succ_pos k2)
      have hk2 : k2 < rest.length := Nat.lt_of_succ_lt_succ hk
      have hpre2 : ∀ i (hi : i < k2), (rest.get ⟨i, Nat.lt_trans hi hk2⟩).Down = none :=
        fun i hi => hpre (i + 1) (Nat.succ_lt_succ hi)
      have hfail2 : (rest.get ⟨k2, hk2⟩).Down = some cause := hfail
      obtain ⟨h1, h2, h3⟩ :=
        ih { s with ledger := s.ledger.filter (fun e => !(e.Name == m.Name)) } k2 hk2
          hpre2 hfail2
      refine ⟨?_, ?_, ?_⟩
      · simp only [runDownLoop, hm, List.take_succ_cons, List.map_cons]
        rw [show ({ s with ledger := s.ledger.filter (fun e => !(e.Name == m.Name)) } :
          DBState).ledger = s.ledger.filter (fun e => !(e.Name == m.Name)) from rfl] at h1
        simpa [deleteNames_cons] using h1
      · simp only [runDownLoop, hm, List.take_succ_cons, List.map_cons]
        simpa using h2
      · simp only [runDownLoop, hm]
        simpa using h3

/-! ### Claim C1: fail-fast partial-batch semantics -/

/-- C1: for every ordered pending (apply) or rollback list, if the k-th
migration's action fails, the run stops immediately: ledger entries for
migrations before position k are inserted (apply) or deleted (rollback),
no ledger change is made for the failing migration or any later one, no
later action runs, and the returned error is the failing migration's name
prefixed to the underlying cause. -/
theorem run_failFast :
    (∀ (batch : Int) (now : Nat) (ms : List migration) (s : DBState) (k : Nat)
       (hk : k < ms.length) (cause : String),
       (∀ i (hi : i < k), (ms.get ⟨i, Nat.lt_trans hi hk⟩).Up = none) →
       (ms.get ⟨k, hk⟩).Up = some cause →
         (runUpLoop batch now ms s).db.ledger
             = s.ledger ++ (ms.take k).map (stampUp batch now)
         ∧ (runUpLoop batch now ms s).executed
             = (ms.take (k + 1)).map migration.Name
         ∧ (runUpLoop batch now ms s).err
             = some (RunError.actionFailed (ms.get ⟨k, hk⟩).Name cause)
         ∧ ∃ rest, RunError.message (RunError.actionFailed (ms.get ⟨k, hk⟩).Name cause)
             = (ms.get ⟨k, hk⟩).Name ++ ": " ++ rest)
  ∧ (∀ (ms : List migration) (s : DBState) (k : Nat)
       (hk : k < ms.length) (cause : String),
       (∀ i (hi : i < k), (ms.get ⟨i, Nat.lt_trans hi hk⟩).Down = none) →
       (ms.get ⟨k, hk⟩).Down = some cause →
         (runDownLoop ms s).db.ledger
             = deleteNames ((ms.take k).map migration.Name) s.ledger
         ∧ (runDownLoop ms s).executed
             = (ms.take (k + 1)).map migration.Name
         ∧ (runDownLoop ms s).err
             = some (RunError.actionFailed (ms.get ⟨k, hk⟩).Name cause)
         ∧ ∃ rest, RunError.message (RunError.actionFailed (ms.get ⟨k, hk⟩).Name cause)
             = (ms.get ⟨k, hk⟩).Name ++ ": " ++ rest) := by
  constructor
  · intro batch now ms s k hk cause hpre hfail
    obtain ⟨h1, h2, h3⟩ := runUpLoop_fail batch now ms s k hk cause hpre hfail
    exact ⟨h1, h2, h3, cause, rfl⟩
  · intro ms s k hk cause hpre hfail
    obtain ⟨h1, h2, h3⟩ := runDownLoop_fail ms s k hk cause hpre hfail
    exact ⟨h1, h2, h3, cause, rfl⟩

/-- Concrete migration whose forward action succeeds. -/
def wUpOk : migration := ⟨"A", none, none, 0, 0, false⟩

/-- Concrete migration whose forward action fails with "boom". -/
def wUpBad : migration := ⟨"B", some "boom", none, 0, 0, false⟩

/-- Concrete completed migration whose reverse action succeeds. -/
def wDownOk : migration := ⟨"C", none, none, 1, 0, false⟩

/-- Concrete completed migration whose reverse action fails with "bust". -/
def wDownBad : migration := ⟨"D", none, some "bust", 1, 0, false⟩

/-- Witness for C1: a two-element pending list failing at position 1, and a
two-element rollback list failing at position 1. -/
theorem run_failFast_witness :
    ((runUpLoop 9 7 [wUpOk, wUpBad] { ledger := [], lockIsLocked := true }).db.ledger
        = [stampUp 9 7 wUpOk]
    ∧ (runUpLoop 9 7 [wUpOk, wUpBad]
        { ledger := [], lockIsLocked := true }).executed = ["A", "B"]
    ∧ (runUpLoop 9 7 [wUpOk, wUpBad] { ledger := [], lockIsLocked := true }).err
        = some (RunError.actionFailed "B" "boom")
    ∧ ∃ rest, RunError.message (RunError.actionFailed "B" "boom") = "B" ++ ": " ++ rest)
  ∧ ((runDownLoop [wDownOk, wDownBad]
        { ledger := [wDownOk, wDownBad], lockIsLocked := true }).db.ledger
        = deleteNames ["C"] [wDownOk, wDownBad]
    ∧ (runDownLoop [wDownOk, wDownBad]
        { ledger := [wDownOk, wDownBad], lockIsLocked := true }).executed = ["C", "D"]
    ∧ (runDownLoop [wDownOk, wDownBad]
        { ledger := [wDownOk, wDownBad], lockIsLocked := true }).err
        = some (RunError.actionFailed "D" "bust")
    ∧ ∃ rest, RunError.message (RunError.actionFailed "D" "bust")
        = "D" ++ ": " ++ rest) :=
  ⟨run_failFast.1 9 7 [wUpOk, wUpBad] { ledger := [], lockIsLocked := true } 1
      (by decide) "boom" (by decide) (by decide),
   run_failFast.2 [wDownOk, wDownBad] { ledger := [wDownOk, wDownBad], lockIsLocked := true }
      1 (by decide) "bust" (by decide) (by decide)⟩

/-! ### Claim C7: the pending diff -/

/-- Modelled from the spec: `pending(all, completed)` is the set difference —
the definitions in `all` whose name is absent from `completed`, preserving
the order of `all`. -/
def pendingSpec (all completed : List migration) : List migration :=
  all.filter (fun a => decide (¬ a.Name ∈ completed.map migration.Name))

/-- C7: for every list `all` of definitions and every list `completed` of
ledger entries, `filterMigrations all completed false` returns exactly the
definitions in `all` whose name is absent from `completed`, in the same
relative order they have in `all` (it coincides with the spec's
`pending(all, completed)` filter). -/
theorem filterMigrations_eq_pendingSpec (all completed : List migration) :
    filterMigrations all completed false = pendingSpec all completed := by
  unfold filterMigrations pendingSpec
  refine List.filter_congr ?_
  intro x _
  by_cases h : x.Name ∈ completed.map migration.Name <;> simp [h, List.elem_iff]

/-! ### Characterizations of the migrate entry point -/

theorem migrate_of_no_pending (rf : Bool) (now : Nat) (r : List migration) (s : DBState)
    (h : filterMigrations (sortByNameAsc r) (getCompletedMigrations s) false = []) :
    migrate rf now r s =
      { registry := sortByNameAsc r, db := s, executed := [],
        output := ["Migrations already up to date"], lockOps := [], err := none } := by
  simp [migrate, h]

/-- The loop phase of a `migrate` run that got past the lock: the batch
number is `getLastBatchNumber + 1` computed on the locked state, the work
list is the pending diff. -/
def upPhase (now : Nat) (r : List migration) (s : DBState) : LoopResult :=
  runUpLoop (getLastBatchNumber { s with lockIsLocked := true } + 1) now
    (filterMigrations (sortByNameAsc r) (getCompletedMigrations s) false)
    { s with lockIsLocked := true }

theorem getLastBatchNumber_lock (s : DBState) (b : Bool) :
    getLastBatchNumber { s with lockIsLocked := b } = getLastBatchNumber s := rfl

theorem migrate_run (rf : Bool) (now : Nat) (r : List migration) (s : DBState)
    (hp : filterMigrations (sortByNameAsc r) (getCompletedMigrations s) false ≠ [])
    (hl : s.lockIsLocked = false) :
    migrate rf now r s =
      { registry := sortByNameAsc r,
        db := (releaseLock rf (upPhase now r s).db).1,
        executed := (upPhase now r s).executed,
        output := ("Running batch "
            ++ toString (getLastBatchNumber { s with lockIsLocked := true } + 1)
            ++ " with "
            ++ toString (filterMigrations (sortByNameAsc r)
                 (getCompletedMigrations s) false).length
            ++ " migration(s)...") :: (upPhase now r s).output,
        lockOps := [LockOp.acquireOp, LockOp.releaseOp],
        err := (upPhase now r s).err } := by
  have hc : ¬ (filterMigrations (sortByNameAsc r)
      (getCompletedMigrations s) false).length = 0 := by
    simpa [List.length_eq_zero] using hp
  simp [migrate, acquireLock, hl, hc, upPhase]

theorem migrate_registry (rf : Bool) (now : Nat) (r : List migration) (s : DBState) :
    (migrate rf now r s).registry = sortByNameAsc r := by
  by_cases hp : filterMigrations (sortByNameAsc r) (getCompletedMigrations s) false = []
  · rw [migrate_of_no_pending rf now r s hp]
  · cases hl : s.lockIsLocked with
    | true =>
      have hc : ¬ (filterMigrations (sortByNameAsc r)
          (getCompletedMigrations s) false).length = 0 := by
        simpa [List.length_eq_zero] using hp
      simp [migrate, acquireLock, hl, hc]
    | false => rw [migrate_run rf now r s hp hl]

theorem migrate_locked (rf : Bool) (now : Nat) (r : List migration) (s : DBState)
    (hp : filterMigrations (sortByNameAsc r) (getCompletedMigrations s) false ≠ [])
    (hl : s.lockIsLocked = true) :
    (migrate rf now r s).err = some RunError.alreadyLocked := by
  have hc : ¬ (filterMigrations (sortByNameAsc r)
      (getCompletedMigrations s) false).length = 0 := by
    simpa [List.length_eq_zero] using hp
  simp [migrate, acquireLock, hl, hc]

theorem migrate_short_circuit (rf : Bool) (now : Nat) (r : List migration) (s : DBState)
    (h : ∀ m ∈ r, m.Name ∈ s.ledger.map migration.Name) :
    (migrate rf now r s).lockOps = []
    ∧ (migrate rf now r s).db = s
    ∧ (migrate rf now r s).executed = []
    ∧ (migrate rf now r s).output = ["Migrations already up to date"]
    ∧ (migrate rf now r s).err = none := by
  have hp : filterMigrations (sortByNameAsc r) (getCompletedMigrations s) false = [] :=
    filterMigrations_eq_nil_iff.mpr (fun a ha => h a (mem_sortByNameAsc.mp ha))
  rw [migrate_of_no_pending rf now r s hp]
  exact ⟨rfl, rfl, rfl, rfl, rfl⟩

theorem migrate_completes_names (rf : Bool) (now : Nat) (r : List migration) (s : DBState)
    (h : (migrate rf now r s).err = none) :
    ∀ m ∈ r, m.Name ∈ (migrate rf now r s).db.ledger.map migration.Name := by
  by_cases hp : filterMigrations (sortByNameAsc r) (getCompletedMigrations s) false = []
  · rw [migrate_of_no_pending rf now r s hp]
    intro m hm
    exact filterMigrations_eq_nil_iff.mp hp m (mem_sortByNameAsc.mpr hm)
  · cases hl : s.lockIsLocked with
    | true =>
      rw [migrate_locked rf now r s hp hl] at h
      exact absurd h (by simp)
    | false =>
      rw [migrate_run rf now r s hp hl] at h ⊢
      intro m hm
      simp only [releaseLock_ledger]
      have hup : ∀ x ∈ filterMigrations (sortByNameAsc r)
          (getCompletedMigrations s) false, x.Up = none :=
        runUpLoop_err_none _ _ _ _ h
      obtain ⟨l1, _, _⟩ := runUpLoop_success
        (getLastBatchNumber { s with lockIsLocked := true } + 1) now
        (filterMigrations (sortByNameAsc r) (getCompletedMigrations s) false)
        { s with lockIsLocked := true } hup
      have hled : (upPhase now r s).db.ledger
          = s.ledger ++ (filterMigrations (sortByNameAsc r)
              (getCompletedMigrations s) false).map
              (stampUp (getLastBatchNumber { s with lockIsLocked := true } + 1) now) := l1
      rw [hled]
      by_cases hc : m.Name ∈ (getCompletedMigrations s).map migration.Name
      · simp only [List.map_append, List.mem_append]
        exact Or.inl hc
      · have hmem : m ∈ filterMigrations (sortByNameAsc r)
            (getCompletedMigrations s) false :=
          mem_filterMigrations_false.mpr ⟨mem_sortByNameAsc.mpr hm, hc⟩
        simp only [List.map_append, List.mem_append, List.map_map]
        refine Or.inr ?_
        refine List.mem_map.mpr ⟨m, hmem, rfl⟩

/-! ### Claim C4: empty pending set short-circuits before locking -/

/-- C4: for every registered set and ledger state, running apply when the
pending set is empty (every registered name is already completed)
short-circuits: it reports "Migrations already up to date", never touches
the lock, runs no action and makes no change to the database state. -/
theorem migrate_alreadyUpToDate (rf : Bool) (now : Nat) (r : List migration) (s : DBState)
    (h : ∀ m ∈ r, m.Name ∈ s.ledger.map migration.Name) :
    (migrate rf now r s).lockOps = []
    ∧ (migrate rf now r s).db = s
    ∧ (migrate rf now r s).executed = []
    ∧ (migrate rf now r s).output = ["Migrations already up to date"]
    ∧ (migrate rf now r s).err = none :=
  migrate_short_circuit rf now r s h

/-- Witness for C4: one registered migration whose name is already in the
ledger. -/
theorem migrate_alreadyUpToDate_witness :
    (migrate false 0 [wUpOk] { ledger := [wUpOk], lockIsLocked := false }).lockOps = []
    ∧ (migrate false 0 [wUpOk] { ledger := [wUpOk], lockIsLocked := false }).db
        = { ledger := [wUpOk], lockIsLocked := false }
    ∧ (migrate false 0 [wUpOk] { ledger := [wUpOk], lockIsLocked := false }).executed = []
    ∧ (migrate false 0 [wUpOk] { ledger := [wUpOk], lockIsLocked := false }).output
        = ["Migrations already up to date"]
    ∧ (migrate false 0 [wUpOk] { ledger := [wUpOk], lockIsLocked := false }).err = none :=
  migrate_alreadyUpToDate false 0 [wUpOk] { ledger := [wUpOk], lockIsLocked := false }
    (by decide)

/-! ### Claim C5: applying twice is idempotent -/

/-- C5: for every registered set, after a successful apply run a second
apply run performs zero migration actions and zero ledger writes (the
database state is returned unchanged, the lock is never touched) and
reports "Migrations already up to date". -/
theorem migrate_idempotent (rf rf2 : Bool) (now now2 : Nat) (r : List migration)
    (s : DBState) (h : (migrate rf now r s).err = none) :
    (migrate rf2 now2 (migrate rf now r s).registry (migrate rf now r s).db).lockOps = []
    ∧ (migrate rf2 now2 (migrate rf now r s).registry (migrate rf now r s).db).db
        = (migrate rf now r s).db
    ∧ (migrate rf2 now2 (migrate rf now r s).registry
        (migrate rf now r s).db).executed = []
    ∧ (migrate rf2 now2 (migrate rf now r s).registry (migrate rf now r s).db).output
        = ["Migrations already up to date"]
    ∧ (migrate rf2 now2 (migrate rf now r s).registry (migrate rf now r s).db).err
        = none := by
  have hnames : ∀ m ∈ (migrate rf now r s).registry,
      m.Name ∈ (migrate rf now r s).db.ledger.map migration.Name := by
    intro m hm
    rw [migrate_registry] at hm
    exact migrate_completes_names rf now r s h m (mem_sortByNameAsc.mp hm)
  exact migrate_short_circuit rf2 now2 _ _ hnames

/-- Witness for C5: a successful run from an empty ledger with one
registered migration, applied twice. -/
theorem migrate_idempotent_witness :
    (migrate false 0 (migrate false 0 [wUpOk] { ledger := [], lockIsLocked := false }).registry
        (migrate false 0 [wUpOk] { ledger := [], lockIsLocked := false }).db).lockOps = []
    ∧ (migrate false 0 (migrate false 0 [wUpOk] { ledger := [], lockIsLocked := false }).registry
        (migrate false 0 [wUpOk] { ledger := [], lockIsLocked := false }).db).db
        = (migrate false 0 [wUpOk] { ledger := [], lockIsLocked := false }).db
    ∧ (migrate false 0 (migrate false 0 [wUpOk] { ledger := [], lockIsLocked := false }).registry
        (migrate false 0 [wUpOk] { ledger := [], lockIsLocked := false }).db).executed = []
    ∧ (migrate false 0 (migrate false 0 [wUpOk] { ledger := [], lockIsLocked := false }).registry
        (migrate false 0 [wUpOk] { ledger := [], lockIsLocked := false }).db).output
        = ["Migrations already up to date"]
    ∧ (migrate false 0 (migrate false 0 [wUpOk] { ledger := [], lockIsLocked := false }).registry
        (migrate false 0 [wUpOk] { ledger := [], lockIsLocked := false }).db).err = none :=
  migrate_idempotent false false 0 0 [wUpOk] { ledger := [], lockIsLocked := false }
    (by decide)

/-! ### Claim C6: the shared batch number -/

/-- C6: for every apply run that executes migrations (lock free, pending
set nonempty), every ledger entry inserted by the run carries the same
batch number `getLastBatchNumber s + 1`, computed once per run; and
`getLastBatchNumber` is the maximum `batch` across all ledger entries, or
0 when the ledger is empty. -/
theorem migrate_sharedBatch (rf : Bool) (now : Nat) (r : List migration) (s : DBState)
    (hl : s.lockIsLocked = false)
    (hp : filterMigrations (sortByNameAsc r) (getCompletedMigrations s) false ≠ []) :
    (∃ appended,
        (migrate rf now r s).db.ledger = s.ledger ++ appended
        ∧ ∀ e ∈ appended, e.Batch = getLastBatchNumber s + 1)
    ∧ (s.ledger = [] → getLastBatchNumber s = 0)
    ∧ (s.ledger ≠ [] →
        (∃ e ∈ s.ledger, e.Batch = getLastBatchNumber s)
        ∧ ∀ e ∈ s.ledger, e.Batch ≤ getLastBatchNumber s) := by
  refine ⟨?_, ?_, ?_⟩
  · rw [migrate_run rf now r s hp hl]
    simp only [releaseLock_ledger]
    obtain ⟨ap, hap, hb⟩ := runUpLoop_ledger_shape
      (getLastBatchNumber { s with lockIsLocked := true } + 1) now
      (filterMigrations (sortByNameAsc r) (getCompletedMigrations s) false)
      { s with lockIsLocked := true }
    exact ⟨ap, hap, fun e he => hb e he⟩
  · intro he
    simp [getLastBatchNumber, he]
  · intro hne
    have hmapne : s.ledger.map migration.Batch ≠ [] := by simpa using hne
    obtain ⟨b, hb⟩ : ∃ b, (s.ledger.map migration.Batch).max? = some b := by
      cases hmax : (s.ledger.map migration.Batch).max? with
      | none => exact absurd (List.max?_eq_none_iff.mp hmax) hmapne
      | some b => exact ⟨b, rfl⟩
    have hval : getLastBatchNumber s = b := by simp [getLastBatchNumber, hb]
    constructor
    · have hmem : b ∈ s.ledger.map migration.Batch :=
        List.max?_mem (fun x y => max_choice x y) hb
      obtain ⟨e, he, heq⟩ := List.mem_map.mp hmem
      exact ⟨e, he, by rw [hval, heq]⟩
    · intro e he
      have hle : ∀ x ∈ s.ledger.map migration.Batch, x ≤ b :=
        (List.max?_le_iff (fun _ _ _ => max_le_iff) hb).mp (le_refl b)
      rw [hval]
      exact hle e.Batch (List.mem_map_of_mem migration.Batch he)

/-- Witness for C6: one pending migration applied on top of a ledger that
already holds one batch-1 entry. -/
theorem migrate_sharedBatch_witness :
    (∃ appended,
        (migrate false 0 [wUpOk] { ledger := [wDownOk], lockIsLocked := false }).db.ledger
            = [wDownOk] ++ appended
        ∧ ∀ e ∈ appended, e.Batch
            = getLastBatchNumber { ledger := [wDownOk], lockIsLocked := false } + 1)
    ∧ (([wDownOk] : List migration) = []
        → getLastBatchNumber { ledger := [wDownOk], lockIsLocked := false } = 0)
    ∧ (([wDownOk] : List migration) ≠ []
        → (∃ e ∈ [wDownOk], e.Batch
              = getLastBatchNumber { ledger := [wDownOk], lockIsLocked := false })
          ∧ ∀ e ∈ [wDownOk], e.Batch
              ≤ getLastBatchNumber { ledger := [wDownOk], lockIsLocked := false }) :=
  migrate_sharedBatch false 0 [wUpOk] { ledger := [wDownOk], lockIsLocked := false }
    rfl (by decide)

/-! ### Claim C2: lock acquisition -/

/-- C2: running `acquireLock` while the lock row has `isLocked == true`
fails with `AlreadyLocked` and leaves the state unchanged (the enclosing
transaction rolls back with no mutation); when `isLocked == false` it sets
`isLocked = true` and commits. -/
theorem acquireLock_spec (s : DBState) :
    (s.lockIsLocked = true →
      acquireLock s = (s, some RunError.alreadyLocked))
  ∧ (s.lockIsLocked = false →
      acquireLock s = ({ s with lockIsLocked := true }, none)) := by
  constructor <;> intro h <;> simp [acquireLock, h]

/-- Witness for C2 at a concrete locked state and a concrete unlocked
state. -/
theorem acquireLock_spec_witness :
    acquireLock { ledger := [], lockIsLocked := true }
      = ({ ledger := [], lockIsLocked := true }, some RunError.alreadyLocked)
  ∧ acquireLock { ledger := [], lockIsLocked := false }
      = ({ ledger := [], lockIsLocked := true }, none) :=
  ⟨(acquireLock_spec { ledger := [], lockIsLocked := true }).1 rfl,
   (acquireLock_spec { ledger := [], lockIsLocked := false }).2 rfl⟩

/-! ### Characterizations of the rollback entry points -/

theorem mem_getMigrationsForBatch {e : migration} {l : List migration} {b : Int} :
    e ∈ getMigrationsForBatch l b ↔ e ∈ l ∧ e.Batch = b := by
  simp [getMigrationsForBatch, List.mem_filter]

theorem mem_selectNamed {e : migration} {completed : List migration} {names : List String} :
    e ∈ selectNamed completed names ↔ e ∈ completed ∧ e.Name ∈ names := by
  constructor
  · intro h
    obtain ⟨a, ha, hb⟩ := List.mem_flatMap.mp h
    obtain ⟨n, hn, heq⟩ := List.mem_filterMap.mp hb
    by_cases hcase : a.Name = n
    · have hae : a = e := by simpa [hcase] using heq
      subst hae
      exact ⟨ha, by rwa [hcase]⟩
    · simp [hcase] at heq
  · rintro ⟨hc, hn⟩
    exact List.mem_flatMap.mpr ⟨e, hc, List.mem_filterMap.mpr ⟨e.Name, hn, by simp⟩⟩

theorem selectNamed_eq_nil {completed : List migration} {names : List String} :
    selectNamed completed names = [] ↔ ∀ e ∈ completed, ¬ e.Name ∈ names := by
  rw [List.eq_nil_iff_forall_not_mem]
  constructor
  · intro h e he hn
    exact h e (mem_selectNamed.mpr ⟨he, hn⟩)
  · intro h e he
    obtain ⟨h1, h2⟩ := mem_selectNamed.mp he
    exact h e h1 h2

/-- The loop phase of a batch `rollback` run that got past the lock. -/
def downPhase (r : List migration) (s : DBState) : LoopResult :=
  runDownLoop (filterMigrations (sortByNameDesc r)
    (getMigrationsForBatch (getCompletedMigrations s)
      (getLastBatchNumber { s with lockIsLocked := true })) true)
    { s with lockIsLocked := true }

/-- The loop phase of a `rollbackNamed` run that got past the lock with a
nonempty selection. -/
def namedPhase (r : List migration) (s : DBState) (arg : String) : LoopResult :=
  runDownLoop (filterMigrations (sortByNameDesc r)
    (selectNamed (getCompletedMigrations s) (parseNamesArg arg)) true)
    { s with lockIsLocked := true }

theorem rollback_locked (rf : Bool) (r : List migration) (s : DBState)
    (hl : s.lockIsLocked = true) :
    rollback rf r s =
      { registry := sortByNameDesc r, db := s, executed := [], output := [],
        lockOps := [LockOp.acquireOp], err := some RunError.alreadyLocked } := by
  simp [rollback, acquireLock, hl]

theorem rollback_noBatches (rf : Bool) (r : List migration) (s : DBState)
    (hl : s.lockIsLocked = false) (hb : getLastBatchNumber s = 0) :
    rollback rf r s =
      { registry := sortByNameDesc r,
        db := (releaseLock rf { s with lockIsLocked := true }).1,
        executed := [], output := ["No migrations have been run yet"],
        lockOps := [LockOp.acquireOp, LockOp.releaseOp], err := none } := by
  simp [rollback, acquireLock, hl, getLastBatchNumber_lock, hb]

theorem rollback_main (rf : Bool) (r : List migration) (s : DBState)
    (hl : s.lockIsLocked = false) (hb : ¬ getLastBatchNumber s = 0) :
    rollback rf r s =
      { registry := sortByNameDesc r,
        db := (releaseLock rf (downPhase r s).db).1,
        executed := (downPhase r s).executed,
        output := ("Rolling back batch "
            ++ toString (getLastBatchNumber { s with lockIsLocked := true })
            ++ " with "
            ++ toString (filterMigrations (sortByNameDesc r)
                 (getMigrationsForBatch (getCompletedMigrations s)
                   (getLastBatchNumber { s with lockIsLocked := true })) true).length
            ++ " migration(s)...") :: (downPhase r s).output,
        lockOps := [LockOp.acquireOp, LockOp.releaseOp],
        err := (downPhase r s).err } := by
  simp [rollback, acquireLock, hl, getLastBatchNumber_lock, hb, downPhase]

theorem rollbackNamed_locked (rf : Bool) (r : List migration) (s : DBState) (arg : String)
    (hl : s.lockIsLocked = true) :
    rollbackNamed rf r s arg =
      { registry := sortByNameDesc r, db := s, executed := [], output := [],
        lockOps := [LockOp.acquireOp], err := some RunError.alreadyLocked } := by
  simp [rollbackNamed, acquireLock, hl]

theorem rollbackNamed_noBatches (rf : Bool) (r : List migration) (s : DBState) (arg : String)
    (hl : s.lockIsLocked = false) (hb : getLastBatchNumber s = 0) :
    rollbackNamed rf r s arg =
      { registry := sortByNameDesc r,
        db := (releaseLock rf { s with lockIsLocked := true }).1,
        executed := [], output := ["No migrations have been run yet"],
        lockOps := [LockOp.acquireOp, LockOp.releaseOp], err := none } := by
  simp [rollbackNamed, acquireLock, hl, getLastBatchNumber_lock, hb]

theorem rollbackNamed_noneSelected (rf : Bool) (r : List migration) (s : DBState)
    (arg : String) (hl : s.lockIsLocked = false) (hb : ¬ getLastBatchNumber s = 0)
    (hsel : selectNamed (getCompletedMigrations s) (parseNamesArg arg) = []) :
    rollbackNamed rf r s arg =
      { registry := sortByNameDesc r,
        db := (releaseLock rf { s with lockIsLocked := true }).1,
        executed := [], output := ["No such named migrations exist!"],
        lockOps := [LockOp.acquireOp, LockOp.releaseOp], err := none } := by
  simp [rollbackNamed, acquireLock, hl, getLastBatchNumber_lock, hb, hsel]

theorem rollbackNamed_main (rf : Bool) (r : List migration) (s : DBState)
    (arg : String) (hl : s.lockIsLocked = false) (hb : ¬ getLastBatchNumber s = 0)
    (hsel : selectNamed (getCompletedMigrations s) (parseNamesArg arg) ≠ []) :
    rollbackNamed rf r s arg =
      { registry := sortByNameDesc r,
        db := (releaseLock rf (namedPhase r s arg).db).1,
        executed := (namedPhase r s arg).executed,
        output := ("Rolling back "
            ++ toString (filterMigrations (sortByNameDesc r)
                 (selectNamed (getCompletedMigrations s) (parseNamesArg arg)) true).length
            ++ " selected migration(s)...") :: (namedPhase r s arg).output,
        lockOps := [LockOp.acquireOp, LockOp.releaseOp],
        err := (namedPhase r s arg).err } := by
  have hpos : 0 < (selectNamed (getCompletedMigrations s) (parseNamesArg arg)).length :=
    List.length_pos.mpr hsel
  simp [rollbackNamed, acquireLock, hl, getLastBatchNumber_lock, hb, hpos, namedPhase]

/-! ### Claim C3 (corrected): the rollback short-circuits happen after locking -/

/-- C3 counterexample: with an empty ledger (no batches, so the claimed
"no locking" short-circuit applies) both rollback entry points record an
acquire and a release of the lock; consequently, when the lock is already
held they fail with `AlreadyLocked` instead of short-circuiting; and named
rollback whose selected set is empty because the ledger is empty reports
"No migrations have been run yet", not "no such migrations". -/
theorem rollback_noLock_counterexample :
    (rollback false [] { ledger := [], lockIsLocked := false }).lockOps
        = [LockOp.acquireOp, LockOp.releaseOp]
    ∧ (rollbackNamed false [] { ledger := [], lockIsLocked := false } "A").lockOps
        = [LockOp.acquireOp, LockOp.releaseOp]
    ∧ (rollback false [] { ledger := [], lockIsLocked := true }).err
        = some RunError.alreadyLocked
    ∧ (rollbackNamed false [] { ledger := [], lockIsLocked := true } "A").err
        = some RunError.alreadyLocked
    ∧ (rollbackNamed false [] { ledger := [], lockIsLocked := false } "A").output
        = ["No migrations have been run yet"] := by
  decide

/-- C3 amended: both rollback entry points short-circuit, but only after
acquiring and then releasing the lock: batch rollback with no batches is
otherwise a no-op reporting "No migrations have been run yet"; named
rollback with a nonempty ledger and an empty selected set is otherwise a
no-op reporting "No such named migrations exist!"; and named rollback on
an empty ledger reports "No migrations have been run yet" instead. -/
theorem rollback_shortCircuits_amended (rf : Bool) (r : List migration) (s : DBState)
    (hl : s.lockIsLocked = false) :
    (getLastBatchNumber s = 0 →
        (rollback rf r s).lockOps = [LockOp.acquireOp, LockOp.releaseOp]
        ∧ (rollback rf r s).db.ledger = s.ledger
        ∧ (rollback rf r s).executed = []
        ∧ (rollback rf r s).output = ["No migrations have been run yet"]
        ∧ (rollback rf r s).err = none)
    ∧ (∀ arg, ¬ getLastBatchNumber s = 0 →
        selectNamed (getCompletedMigrations s) (parseNamesArg arg) = [] →
        (rollbackNamed rf r s arg).lockOps = [LockOp.acquireOp, LockOp.releaseOp]
        ∧ (rollbackNamed rf r s arg).db.ledger = s.ledger
        ∧ (rollbackNamed rf r s arg).executed = []
        ∧ (rollbackNamed rf r s arg).output = ["No such named migrations exist!"]
        ∧ (rollbackNamed rf r s arg).err = none)
    ∧ (∀ arg, getLastBatchNumber s = 0 →
        (rollbackNamed rf r s arg).lockOps = [LockOp.acquireOp, LockOp.releaseOp]
        ∧ (rollbackNamed rf r s arg).db.ledger = s.ledger
        ∧ (rollbackNamed rf r s arg).executed = []
        ∧ (rollbackNamed rf r s arg).output = ["No migrations have been run yet"]
        ∧ (rollbackNamed rf r s arg).err = none) := by
  refine ⟨?_, ?_, ?_⟩
  · intro hb
    rw [rollback_noBatches rf r s hl hb]
    exact ⟨rfl, by simp [releaseLock_ledger], rfl, rfl, rfl⟩
  · intro arg hb hsel
    rw [rollbackNamed_noneSelected rf r s arg hl hb hsel]
    exact ⟨rfl, by simp [releaseLock_ledger], rfl, rfl, rfl⟩
  · intro arg hb
    rw [rollbackNamed_noBatches rf r s arg hl hb]
    exact ⟨rfl, by simp [releaseLock_ledger], rfl, rfl, rfl⟩

/-- Witness for the amended C3 at the empty unlocked state. -/
theorem rollback_shortCircuits_amended_witness :
    (getLastBatchNumber { ledger := [], lockIsLocked := false } = 0 →
        (rollback false [] { ledger := [], lockIsLocked := false }).lockOps
            = [LockOp.acquireOp, LockOp.releaseOp]
        ∧ (rollback false [] { ledger := [], lockIsLocked := false }).db.ledger = []
        ∧ (rollback false [] { ledger := [], lockIsLocked := false }).executed = []
        ∧ (rollback false [] { ledger := [], lockIsLocked := false }).output
            = ["No migrations have been run yet"]
        ∧ (rollback false [] { ledger := [], lockIsLocked := false }).err = none)
    ∧ (∀ arg, ¬ getLastBatchNumber { ledger := [], lockIsLocked := false } = 0 →
        selectNamed (getCompletedMigrations { ledger := [], lockIsLocked := false })
          (parseNamesArg arg) = [] →
        (rollbackNamed false [] { ledger := [], lockIsLocked := false } arg).lockOps
            = [LockOp.acquireOp, LockOp.releaseOp]
        ∧ (rollbackNamed false [] { ledger := [], lockIsLocked := false } arg).db.ledger = []
        ∧ (rollbackNamed false [] { ledger := [], lockIsLocked := false } arg).executed = []
        ∧ (rollbackNamed false [] { ledger := [], lockIsLocked := false } arg).output
            = ["No such named migrations exist!"]
        ∧ (rollbackNamed false [] { ledger := [], lockIsLocked := false } arg).err = none)
    ∧ (∀ arg, getLastBatchNumber { ledger := [], lockIsLocked := false } = 0 →
        (rollbackNamed false [] { ledger := [], lockIsLocked := false } arg).lockOps
            = [LockOp.acquireOp, LockOp.releaseOp]
        ∧ (rollbackNamed false [] { ledger := [], lockIsLocked := false } arg).db.ledger = []
        ∧ (rollbackNamed false [] { ledger := [], lockIsLocked := false } arg).executed = []
        ∧ (rollbackNamed false [] { ledger := [], lockIsLocked := false } arg).output
            = ["No migrations have been run yet"]
        ∧ (rollbackNamed false [] { ledger := [], lockIsLocked := false } arg).err = none) :=
  rollback_shortCircuits_amended false [] { ledger := [], lockIsLocked := false } rfl

/-! ### Claim C8: batch rollback only touches the last batch -/

/-- C8: batch rollback only ever touches ledger entries whose batch equals
the current maximum batch number: entries with any other batch value
remain in the ledger, nothing is ever added to the ledger, and every
reverse action that runs belongs to an entry of the maximum batch.
(The ledger invariant that names are unique is assumed; deletion is by
name, so a duplicated name could otherwise be deleted across batches.) -/
theorem rollback_framesBatches (rf : Bool) (r : List migration) (s : DBState)
    (hnodup : (s.ledger.map migration.Name).Nodup) :
    (∀ e ∈ s.ledger, ¬ e.Batch = getLastBatchNumber s →
        e ∈ (rollback rf r s).db.ledger)
    ∧ List.Sublist (rollback rf r s).db.ledger s.ledger
    ∧ (∀ n ∈ (rollback rf r s).executed,
        ∃ e ∈ s.ledger, e.Batch = getLastBatchNumber s ∧ e.Name = n) := by
  cases hl : s.lockIsLocked with
  | true =>
    rw [rollback_locked rf r s hl]
    exact ⟨fun e he _ => he, List.Sublist.refl _,
      fun n hn => absurd hn (List.not_mem_nil n)⟩
  | false =>
    by_cases hb : getLastBatchNumber s = 0
    · rw [rollback_noBatches rf r s hl hb]
      dsimp only
      rw [releaseLock_ledger]
      exact ⟨fun e he _ => he, List.Sublist.refl _,
        fun n hn => absurd hn (List.not_mem_nil n)⟩
    · have hnames : ∀ n ∈ (downPhase r s).executed,
          ∃ e ∈ s.ledger, e.Batch = getLastBatchNumber s ∧ e.Name = n := by
        intro n hn
        simp only [downPhase] at hn
        have hn2 := runDownLoop_executed_sub _ _ n hn
        obtain ⟨m, hm, rfl⟩ := List.mem_map.mp hn2
        obtain ⟨hmr, hmn⟩ := mem_filterMigrations_true.mp hm
        obtain ⟨e, he, hename⟩ := List.mem_map.mp hmn
        obtain ⟨heL, heB⟩ := mem_getMigrationsForBatch.mp he
        exact ⟨e, heL, heB, hename⟩
      have hframe : ∀ e ∈ s.ledger, ¬ e.Batch = getLastBatchNumber s →
          e ∈ (downPhase r s).db.ledger := by
        intro e he hne
        have hnotin : ¬ e.Name ∈ (filterMigrations (sortByNameDesc r)
            (getMigrationsForBatch (getCompletedMigrations s)
              (getLastBatchNumber { s with lockIsLocked := true })) true).map
              migration.Name := by
          intro hc
          obtain ⟨m, hm, hmn⟩ := List.mem_map.mp hc
          obtain ⟨hmr, hmb⟩ := mem_filterMigrations_true.mp hm
          obtain ⟨e2, he2, he2n⟩ := List.mem_map.mp hmb
          obtain ⟨he2L, he2B⟩ := mem_getMigrationsForBatch.mp he2
          have heq : e2 = e :=
            List.inj_on_of_nodup_map hnodup he2L he (by rw [he2n, hmn])
          exact hne (by rw [← heq]; exact he2B)
        exact runDownLoop_frame _ _ e he hnotin
      rw [rollback_main rf r s hl hb]
      dsimp only
      rw [releaseLock_ledger]
      exact ⟨hframe, runDownLoop_sublist _ _, hnames⟩

/-- Scenario-B ledger entry of batch 4. -/
def wB4 : migration := ⟨"a4", none, none, 4, 0, false⟩

/-- Scenario-B ledger entry of batch 5. -/
def wB5a : migration := ⟨"b5", none, none, 5, 0, false⟩

/-- Second scenario-B ledger entry of batch 5. -/
def wB5b : migration := ⟨"c5", none, none, 5, 0, false⟩

/-- Witness for C8 at scenario B: one batch-4 entry and two batch-5
entries, all three registered. -/
theorem rollback_framesBatches_witness :
    (∀ e ∈ ({ ledger := [wB4, wB5a, wB5b], lockIsLocked := false } : DBState).ledger,
        ¬ e.Batch = getLastBatchNumber { ledger := [wB4, wB5a, wB5b], lockIsLocked := false } →
        e ∈ (rollback false [wB4, wB5a, wB5b]
              { ledger := [wB4, wB5a, wB5b], lockIsLocked := false }).db.ledger)
    ∧ List.Sublist (rollback false [wB4, wB5a, wB5b]
          { ledger := [wB4, wB5a, wB5b], lockIsLocked := false }).db.ledger
        [wB4, wB5a, wB5b]
    ∧ (∀ n ∈ (rollback false [wB4, wB5a, wB5b]
          { ledger := [wB4, wB5a, wB5b], lockIsLocked := false }).executed,
        ∃ e ∈ ({ ledger := [wB4, wB5a, wB5b], lockIsLocked := false } : DBState).ledger,
          e.Batch = getLastBatchNumber { ledger := [wB4, wB5a, wB5b], lockIsLocked := false }
          ∧ e.Name = n) :=
  rollback_framesBatches false [wB4, wB5a, wB5b]
    { ledger := [wB4, wB5a, wB5b], lockIsLocked := false } (by decide)

/-! ### Claim C9: named rollback -/

theorem filterMigrations_sublist (all subset : List migration) (b : Bool) :
    List.Sublist (filterMigrations all subset b) all := by
  unfold filterMigrations
  exact List.filter_sublist _

theorem sorted_sortByNameDesc (l : List migration) :
    List.Pairwise nameGe (sortByNameDesc l) :=
  List.sorted_insertionSort nameGe l

theorem nodup_names_sortByNameDesc {l : List migration}
    (h : (l.map migration.Name).Nodup) :
    ((sortByNameDesc l).map migration.Name).Nodup :=
  ((List.perm_insertionSort nameGe l).map migration.Name).nodup_iff.mpr h

/-- C9: named rollback selects exactly the completed ledger entries whose
name appears in the parsed comma-separated list (spaces stripped),
regardless of their batch, intersected with the registered definitions,
and reverses them in strictly descending name order; ledger entries whose
name is not in the list, or not registered, are left untouched.
(Hypotheses: the lock is free, at least one batch exists, registered
names are unique, and the relevant reverse actions succeed.) -/
theorem rollbackNamed_selection (rf : Bool) (r : List migration) (s : DBState)
    (arg : String) (hl : s.lockIsLocked = false)
    (hb : ¬ getLastBatchNumber s = 0)
    (hnodupR : (r.map migration.Name).Nodup)
    (hdown : ∀ m ∈ r, m.Down = none) :
    (∀ n, n ∈ (rollbackNamed rf r s arg).executed ↔
        n ∈ r.map migration.Name ∧ n ∈ s.ledger.map migration.Name
          ∧ n ∈ parseNamesArg arg)
    ∧ List.Pairwise (fun a b : String => b < a) (rollbackNamed rf r s arg).executed
    ∧ (∀ e ∈ s.ledger, ¬ e.Name ∈ parseNamesArg arg →
        e ∈ (rollbackNamed rf r s arg).db.ledger)
    ∧ (∀ e ∈ s.ledger, ¬ e.Name ∈ r.map migration.Name →
        e ∈ (rollbackNamed rf r s arg).db.ledger)
    ∧ (rollbackNamed rf r s arg).err = none := by
  by_cases hsel : selectNamed (getCompletedMigrations s) (parseNamesArg arg) = []
  · rw [rollbackNamed_noneSelected rf r s arg hl hb hsel]
    dsimp only
    rw [releaseLock_ledger]
    refine ⟨?_, List.Pairwise.nil, fun e he _ => he, fun e he _ => he, rfl⟩
    intro n
    simp only [List.not_mem_nil, false_iff]
    rintro ⟨_, hnl, hna⟩
    obtain ⟨e, he, hen⟩ := List.mem_map.mp hnl
    exact (selectNamed_eq_nil.mp hsel e he) (by rw [hen]; exact hna)
  · have hdownAll : ∀ m ∈ filterMigrations (sortByNameDesc r)
        (selectNamed (getCompletedMigrations s) (parseNamesArg arg)) true,
        m.Down = none := fun m hm =>
      hdown m (mem_sortByNameDesc.mp (mem_filterMigrations_true.mp hm).1)
    obtain ⟨hled, hexec, herr⟩ :=
      runDownLoop_success _ { s with lockIsLocked := true } hdownAll
    rw [rollbackNamed_main rf r s arg hl hb hsel]
    dsimp only
    rw [releaseLock_ledger]
    refine ⟨?_, ?_, ?_, ?_, ?_⟩
    · intro n
      simp only [namedPhase]
      rw [hexec]
      constructor
      · intro hn
        obtain ⟨m, hm, rfl⟩ := List.mem_map.mp hn
        obtain ⟨hmr, hmn⟩ := mem_filterMigrations_true.mp hm
        obtain ⟨e, he, hen⟩ := List.mem_map.mp hmn
        obtain ⟨heL, heN⟩ := mem_selectNamed.mp he
        exact ⟨List.mem_map_of_mem _ (mem_sortByNameDesc.mp hmr),
          List.mem_map.mpr ⟨e, heL, hen⟩, by rw [← hen]; exact heN⟩
      · rintro ⟨hnr, hnl, hna⟩
        obtain ⟨m, hmr, rfl⟩ := List.mem_map.mp hnr
        obtain ⟨e, heL, hen⟩ := List.mem_map.mp hnl
        refine List.mem_map.mpr ⟨m,
          mem_filterMigrations_true.mpr ⟨mem_sortByNameDesc.mpr hmr, ?_⟩, rfl⟩
        exact List.mem_map.mpr ⟨e, mem_selectNamed.mpr ⟨heL, by rw [hen]; exact hna⟩, hen⟩
    · simp only [namedPhase]
      rw [hexec]
      have hsorted : List.Pairwise nameGe (filterMigrations (sortByNameDesc r)
          (selectNamed (getCompletedMigrations s) (parseNamesArg arg)) true) :=
        List.Pairwise.sublist (filterMigrations_sublist _ _ _) (sorted_sortByNameDesc r)
      have hge : List.Pairwise (fun a b : String => b ≤ a)
          ((filterMigrations (sortByNameDesc r)
            (selectNamed (getCompletedMigrations s) (parseNamesArg arg)) true).map
              migration.Name) :=
        List.Pairwise.map migration.Name (fun a b h => h) hsorted
      have hnodupTR : ((filterMigrations (sortByNameDesc r)
          (selectNamed (getCompletedMigrations s) (parseNamesArg arg)) true).map
            migration.Name).Nodup :=
        List.Sublist.nodup
          (List.Sublist.map migration.Name (filterMigrations_sublist _ _ _))
          (nodup_names_sortByNameDesc hnodupR)
      refine (List.Pairwise.and hge hnodupTR).imp ?_
      rintro a b ⟨h1, h2⟩
      exact lt_of_le_of_ne h1 (fun hc => h2 hc.symm)
    · intro e he hne
      simp only [namedPhase]
      refine runDownLoop_frame _ _ e he ?_
      intro hc
      obtain ⟨m, hm, hmn⟩ := List.mem_map.mp hc
      obtain ⟨_, hmb⟩ := mem_filterMigrations_true.mp hm
      obtain ⟨e2, he2, he2n⟩ := List.mem_map.mp hmb
      obtain ⟨_, he2N⟩ := mem_selectNamed.mp he2
      exact hne (by rw [← hmn, ← he2n]; exact he2N)
    · intro e he hne
      simp only [namedPhase]
      refine runDownLoop_frame _ _ e he ?_
      intro hc
      obtain ⟨m, hm, hmn⟩ := List.mem_map.mp hc
      obtain ⟨hmr, _⟩ := mem_filterMigrations_true.mp hm
      refine hne ?_
      rw [← hmn]
      exact List.mem_map_of_mem _ (mem_sortByNameDesc.mp hmr)
    · simp only [namedPhase]
      exact herr

/-- Scenario-C registered definition A. -/
def wRegA : migration := ⟨"A", none, none, 0, 0, false⟩

/-- Scenario-C registered definition B. -/
def wRegB : migration := ⟨"B", none, none, 0, 0, false⟩

/-- Scenario-C registered definition C. -/
def wRegC : migration := ⟨"C", none, none, 0, 0, false⟩

/-- Scenario-C registered definition D. -/
def wRegD : migration := ⟨"D", none, none, 0, 0, false⟩

/-- Scenario-C ledger entry for A (batch 1). -/
def wLedA : migration := ⟨"A", none, none, 1, 0, false⟩

/-- Scenario-C ledger entry for B (batch 2). -/
def wLedB : migration := ⟨"B", none, none, 2, 0, false⟩

/-- Scenario-C ledger entry for C (batch 2). -/
def wLedC : migration := ⟨"C", none, none, 2, 0, false⟩

/-- Witness for C9 at scenario C: registry [A,B,C,D], completed
[A(batch 1), B(batch 2), C(batch 2)], request "B,A". -/
theorem rollbackNamed_selection_witness :
    (∀ n, n ∈ (rollbackNamed false [wRegA, wRegB, wRegC, wRegD]
          { ledger := [wLedA, wLedB, wLedC], lockIsLocked := false } "B,A").executed ↔
        n ∈ [wRegA, wRegB, wRegC, wRegD].map migration.Name
          ∧ n ∈ ({ ledger := [wLedA, wLedB, wLedC], lockIsLocked := false }
              : DBState).ledger.map migration.Name
          ∧ n ∈ parseNamesArg "B,A")
    ∧ List.Pairwise (fun a b : String => b < a)
        (rollbackNamed false [wRegA, wRegB, wRegC, wRegD]
          { ledger := [wLedA, wLedB, wLedC], lockIsLocked := false } "B,A").executed
    ∧ (∀ e ∈ ({ ledger := [wLedA, wLedB, wLedC], lockIsLocked := false }
          : DBState).ledger, ¬ e.Name ∈ parseNamesArg "B,A" →
        e ∈ (rollbackNamed false [wRegA, wRegB, wRegC, wRegD]
          { ledger := [wLedA, wLedB, wLedC], lockIsLocked := false } "B,A").db.ledger)
    ∧ (∀ e ∈ ({ ledger := [wLedA, wLedB, wLedC], lockIsLocked := false }
          : DBState).ledger,
        ¬ e.Name ∈ [wRegA, wRegB, wRegC, wRegD].map migration.Name →
        e ∈ (rollbackNamed false [wRegA, wRegB, wRegC, wRegD]
          { ledger := [wLedA, wLedB, wLedC], lockIsLocked := false } "B,A").db.ledger)
    ∧ (rollbackNamed false [wRegA, wRegB, wRegC, wRegD]
        { ledger := [wLedA, wLedB, wLedC], lockIsLocked := false } "B,A").err = none :=
  rollbackNamed_selection false [wRegA, wRegB, wRegC, wRegD]
    { ledger := [wLedA, wLedB, wLedC], lockIsLocked := false } "B,A"
    rfl (by decide) (by decide) (by decide)

/-! ### Claim C10: the deferred lock release's error is discarded -/

theorem migrate_err_rf (rf : Bool) (now : Nat) (r : List migration) (s : DBState) :
    (migrate rf now r s).err = (migrate false now r s).err := by
  by_cases hp : filterMigrations (sortByNameAsc r) (getCompletedMigrations s) false = []
  · rw [migrate_of_no_pending rf now r s hp, migrate_of_no_pending false now r s hp]
  · cases hl : s.lockIsLocked with
    | true => rw [migrate_locked rf now r s hp hl, migrate_locked false now r s hp hl]
    | false => rw [migrate_run rf now r s hp hl, migrate_run false now r s hp hl]

theorem rollback_err_rf (rf : Bool) (r : List migration) (s : DBState) :
    (rollback rf r s).err = (rollback false r s).err := by
  cases hl : s.lockIsLocked with
  | true => rw [rollback_locked rf r s hl, rollback_locked false r s hl]
  | false =>
    by_cases hb : getLastBatchNumber s = 0
    · rw [rollback_noBatches rf r s hl hb, rollback_noBatches false r s hl hb]
    · rw [rollback_main rf r s hl hb, rollback_main false r s hl hb]

theorem rollbackNamed_err_rf (rf : Bool) (r : List migration) (s : DBState)
    (arg : String) :
    (rollbackNamed rf r s arg).err = (rollbackNamed false r s arg).err := by
  cases hl : s.lockIsLocked with
  | true => rw [rollbackNamed_locked rf r s arg hl, rollbackNamed_locked false r s arg hl]
  | false =>
    by_cases hb : getLastBatchNumber s = 0
    · rw [rollbackNamed_noBatches rf r s arg hl hb,
        rollbackNamed_noBatches false r s arg hl hb]
    · by_cases hsel : selectNamed (getCompletedMigrations s) (parseNamesArg arg) = []
      · rw [rollbackNamed_noneSelected rf r s arg hl hb hsel,
          rollbackNamed_noneSelected false r s arg hl hb hsel]
      · rw [rollbackNamed_main rf r s arg hl hb hsel,
          rollbackNamed_main false r s arg hl hb hsel]

/-- C10: a failure of the deferred lock release is silently discarded:
for every apply or rollback run, the returned error is the same whether
the release update fails or succeeds, and a run can return no error while
the lock row is still locked (shown at a concrete run with a failing
release). -/
theorem releaseLock_error_discarded :
    (∀ (now : Nat) (r : List migration) (s : DBState),
        (migrate true now r s).err = (migrate false now r s).err)
    ∧ (∀ (r : List migration) (s : DBState),
        (rollback true r s).err = (rollback false r s).err)
    ∧ (∀ (r : List migration) (s : DBState) (arg : String),
        (rollbackNamed true r s arg).err = (rollbackNamed false r s arg).err)
    ∧ (migrate true 0 [wUpOk] { ledger := [], lockIsLocked := false }).err = none
    ∧ (migrate true 0 [wUpOk]
        { ledger := [], lockIsLocked := false }).db.lockIsLocked = true :=
  ⟨fun now r s => migrate_err_rf true now r s,
   fun r s => rollback_err_rf true r s,
   fun r s arg => rollbackNamed_err_rf true r s arg,
   by decide, by decide⟩

end GoPgMigrations
